import Mathlib

/-!
Shallow embedding of the WebMMBServer job-execution core (Rust) in Lean 4.

Conventions used throughout:
* Directory contents are modelled as lists of file names (`List String`);
  the source skips directory entries that are not regular files, so only
  regular files are modelled.
* Machine integers: Rust `i32` values are modelled as `Int` (with the i32
  range enforced where the source parses text into `i32`), `u32` values as
  `Nat` reduced modulo `2 ^ 32` where the source uses wrapping arithmetic.
* Fallible Rust functions returning `Result<T, E>` become `Except E T`;
  effectful inputs (process polls, file reads, lock acquisition) become
  explicit parameters holding the observed outcome.
-/

deriving instance DecidableEq for Except

namespace WebMMB

/-- State enum of mmb/mod.rs (mmb::State). -/
inductive State where
  | Unknown
  | NotStarted
  | Queued
  | Running
  | Failed
  | Finished
deriving DecidableEq, Repr

/-- Progress record parsed from the progress file (mmb::Progress /
session::job::Progress): state, step, total_steps. -/
structure Progress where
  state : State
  step : Int
  total_steps : Int
deriving DecidableEq, Repr

/-- File-name constant CMDS_FILE_NAME of mmb/mod.rs. -/
def CMDS_FILE_NAME : String := "commands.txt"

/-- File-name constant DOUT_FILE_NAME of mmb/mod.rs. -/
def DOUT_FILE_NAME : String := "doutput.txt"

/-- Constant LAST_FRAME_FILE_PREFIX of mmb/mod.rs (stage artifact name stem). -/
def LAST_FRAME_FILE_BASE : String := "last"

/-- File-name constant PARAMS_FILE_NAME of mmb/mod.rs. -/
def PARAMS_FILE_NAME : String := "parameters.csv"

/-- File-name constant PGRS_FILE_NAME of mmb/mod.rs. -/
def PGRS_FILE_NAME : String := "progress.json"

/-- Constant TRAJECTORY_FILE_PREFIX of mmb/mod.rs (stage artifact name stem). -/
def TRAJECTORY_FILE_BASE : String := "trajectory"

/-- Split of a character list at every occurrence of a separator character;
the accumulator holds the current segment reversed. Structural counterpart
of Rust str::split with a one-character pattern (the source only splits on
".", " " and a newline). -/
def split_char_aux (sep : Char) : List Char → List Char → List (List Char)
  | [], acc => [acc.reverse]
  | c :: cs, acc =>
    if c = sep then acc.reverse :: split_char_aux sep cs []
    else split_char_aux sep cs (c :: acc)

/-- Rust str::split with a one-character pattern, on Lean strings. -/
def str_split (sep : Char) (s : String) : List String :=
  (split_char_aux sep s.data []).map String.mk

/-- Rust str::starts_with. -/
def str_starts_with (s p : String) : Bool :=
  p.data.isPrefixOf s.data

/-- Rust str::to_lowercase (ASCII letters only; the names the source
lowercases are ASCII). -/
def str_to_lower (s : String) : String :=
  ⟨s.data.map Char.toLower⟩

/-- Rust str::trim (whitespace as recognised by Char.isWhitespace). -/
def str_trim (s : String) : String :=
  ⟨((s.data.dropWhile Char.isWhitespace).reverse.dropWhile Char.isWhitespace).reverse⟩

/-- Length of a string in characters. -/
def str_len (s : String) : Nat :=
  s.data.length

/-- Join of string segments with a separator, inverse of str_split. -/
def str_join (sep : Char) (parts : List String) : String :=
  ⟨List.intercalate [sep] (parts.map String.data)⟩

/-- Value of a list of decimal digit characters. -/
def digits_value (cs : List Char) : Nat :=
  cs.foldl (fun a c => 10 * a + (c.toNat - 48)) 0

/-- Decimal-digit parse of a character list: all characters must be digits
and there must be at least one. -/
def chars_to_nat? (cs : List Char) : Option Nat :=
  if cs ≠ [] ∧ cs.all Char.isDigit then some (digits_value cs) else none

/-- Rust str::parse::<i32>: optional sign, decimal digits, value must fit
the i32 range. -/
def parse_i32 (s : String) : Option Int :=
  let core : Option Int :=
    match s.data with
    | '-' :: cs => (chars_to_nat? cs).map (fun n => -(n : Int))
    | '+' :: cs => (chars_to_nat? cs).map (fun n => (n : Int))
    | cs => (chars_to_nat? cs).map (fun n => (n : Int))
  match core with
  | some n => if -(2 ^ 31) ≤ n ∧ n < 2 ^ 31 then some n else none
  | none => none

/-- Rust Path::extension on a bare file name: the portion after the final
dot, none when there is no dot or when the only dot is the leading one. -/
def file_extension (name : String) : Option String :=
  match str_split ('.') name with
  | [] => none
  | [_] => none
  | [p, q] => if p = ("") then none else some q
  | parts => parts.getLast?

/-- Rust Path::file_stem on a bare file name: the portion before the final
dot, the whole name when there is no dot or when the only dot is the
leading one. -/
def file_stem (name : String) : Option String :=
  match str_split ('.') name with
  | [] => none
  | [_] => some name
  | [p, _] => if p = ("") then some name else some p
  | parts => some (str_join ('.') parts.dropLast)

/-- Stage number carried by a directory entry for a given artifact name
base: the entry must have extension pdb, a stem of the form base.n, and n
must parse as an i32. This is the per-entry body of the get_stages loop of
session/job.rs. -/
def stage_file_number (file_name : String) (p : String) : Option Int :=
  match file_extension p with
  | none => none
  | some extn =>
    if extn ≠ ("pdb") then none
    else
      match file_stem p with
      | none => none
      | some name =>
        if ¬ str_starts_with name (file_name ++ (".")) then none
        else
          match str_split ('.') name with
          | [_, s] => parse_i32 s
          | _ => none

/-- Function get_stages of session/job.rs: collect the stage numbers of the
artifacts named file_name.n.pdb in the directory and sort them ascending
(the source uses sort_unstable; any ascending sort of the same multiset
yields the same list). -/
def get_stages (files : List String) (file_name : String) : List Int :=
  List.insertionSort (fun a b => a ≤ b) (files.filterMap (stage_file_number file_name))

/-- Per-entry deletion test of clear_stages of session/job.rs: a pdb file
whose stem starts with the trajectory or last-frame base followed by a dot,
splits into exactly two segments, whose second segment parses as an i32
that is at least the threshold stage. -/
def clear_stages_candidate (stage : Int) (p : String) : Bool :=
  match file_extension p with
  | none => false
  | some extn =>
    if extn ≠ ("pdb") then false
    else
      match file_stem p with
      | none => false
      | some name =>
        if ¬ (str_starts_with name (TRAJECTORY_FILE_BASE ++ (".")) ||
              str_starts_with name (LAST_FRAME_FILE_BASE ++ ("."))) then false
        else
          match str_split ('.') name with
          | [_, s] =>
            match parse_i32 s with
            | some n => stage ≤ n
            | none => false
          | _ => false

/-- Function clear_stages of session/job.rs, modelled on the directory
contents: every entry whose stage number is at least the threshold is
removed (file-system deletion failures are not modelled). -/
def clear_stages (files : List String) (stage : Int) : List String :=
  files.filter (fun p => ¬ clear_stages_candidate stage p)

/-- Walk of the sorted stage list in Job::info of session/job.rs: extend
the run while each next element is the successor of the current last, stop
at the first discontinuity. -/
def run_last (last : Int) : List Int → Int
  | [] => last
  | n :: rest => if last + 1 ≠ n then last else run_last n rest

/-- First/last stage computation of Job::info of session/job.rs: (0, 0) on
an empty list, otherwise the head and the end of the contiguous run
starting at the head. -/
def first_last_stages (avail : List Int) : Int × Int :=
  match avail with
  | [] => (0, 0)
  | first :: rest => (first, run_last first rest)

/-- Method Job::last_available_stage of session/job.rs: the last element of
the sorted trajectory stage list, none when there is none. -/
def last_available_stage (files : List String) : Option Int :=
  (get_stages files TRAJECTORY_FILE_BASE).getLast?

/-! Command parsing, from mmb/commands.rs. -/

/-- Key constant KEY_FIRST_STAGE of mmb/commands.rs. -/
def KEY_FIRST_STAGE : String := "firstStage"

/-- Key constant KEY_LAST_STAGE of mmb/commands.rs. -/
def KEY_LAST_STAGE : String := "lastStage"

/-- Key constant KEY_NUM_REP_INTVLS of mmb/commands.rs. -/
def KEY_NUM_REP_INTVLS : String := "numReportingIntervals"

/-- Result type ParsedRaw of mmb/commands.rs. -/
structure ParsedRaw where
  first_stage : Int
  last_stage : Int
  num_reporting_intervals : Int
deriving DecidableEq, Repr

/-- Result type Stages of mmb/commands.rs. -/
structure Stages where
  first : Int
  last : Int
deriving DecidableEq, Repr

/-- Function get_value_from_raw of mmb/commands.rs, specialised to the i32
converter (the only converter the source instantiates it with): scan the
lines for the first one whose first space-separated segment matches the key
case-insensitively and that has at least two segments; parse its first
non-empty value segment, stopping the scan even if that parse fails. -/
def get_value_from_raw (key : String) : List String → Option Int
  | [] => none
  | l :: rest =>
    match str_split (' ') (str_trim l) with
    | [] => get_value_from_raw key rest
    | s0 :: segs =>
      if segs.length < 1 then get_value_from_raw key rest
      else if str_to_lower s0 ≠ str_to_lower key then get_value_from_raw key rest
      else
        match segs.find? (fun s => decide (¬ str_len s < 1)) with
        | some s => parse_i32 s
        | none => get_value_from_raw key rest

/-- Function parse_raw of mmb/commands.rs: extract firstStage, lastStage
and numReportingIntervals from raw command text; firstStage must be
positive and equal to lastStage (multi-stage spans are unsupported),
numReportingIntervals must be positive. -/
def parse_raw (raw : String) : Except String ParsedRaw :=
  let lines := str_split ('\n') raw
  match get_value_from_raw KEY_FIRST_STAGE lines with
  | none => .error (KEY_FIRST_STAGE ++ (" was not specified or is invalid"))
  | some first_stage =>
    match get_value_from_raw KEY_LAST_STAGE lines with
    | none => .error (KEY_LAST_STAGE ++ (" was not specified or is invalid"))
    | some last_stage =>
      match get_value_from_raw KEY_NUM_REP_INTVLS lines with
      | none => .error (KEY_NUM_REP_INTVLS ++ (" was not specified or is invalid"))
      | some num_reporting_intervals =>
        if first_stage < 1 then .error (KEY_FIRST_STAGE ++ (" must be positive"))
        else if first_stage ≠ last_stage then .error ("Multi-stage jobs are currently not supported")
        else if num_reporting_intervals < 1 then .error (KEY_NUM_REP_INTVLS ++ (" must be positive"))
        else .ok {first_stage := first_stage, last_stage := last_stage,
                  num_reporting_intervals := num_reporting_intervals}

/-! Job data model, from session/job.rs and server/api.rs. -/

/-- Error taxonomy JobError of the session module: BadInput carries a
caller-visible message, InternalError is generic. -/
inductive JobError where
  | BadInput (msg : String)
  | InternalError
deriving DecidableEq, Repr

/-- Commands-mode tag api::JobCommandsMode of server/api.rs. -/
inductive JobCommandsMode where
  | None
  | Synthetic
  | Raw
deriving DecidableEq, Repr

/-- Structured commands api::Commands of server/api.rs, restricted to its
stage fields; the simulation parameters (reporting interval, temperature,
concrete command payload) are opaque to every claim and omitted. The
repository snapshot mixes two revisions of this type: server/api.rs
declares first_stage and last_stage while session/job.rs reads a single
stage field; all three fields are carried so that both call sites can be
translated as written. -/
structure Commands where
  first_stage : Int
  last_stage : Int
  stage : Int
deriving DecidableEq, Repr

/-- Function stages of mmb/commands.rs: reject commands whose last stage
is lower than their first stage. -/
def stages (commands : Commands) : Except String Stages :=
  if commands.last_stage < commands.first_stage then
    .error ("Last stage number cannot be lower than first stage")
  else .ok {first := commands.first_stage, last := commands.last_stage}

/-- Progress part of JobInfo (session::job::JobProgress). -/
structure JobProgress where
  step : Int
  total_steps : Int
deriving DecidableEq, Repr

/-- Derived record session::job::JobInfo. -/
structure JobInfo where
  name : String
  state : State
  first_stage : Int
  last_stage : Int
  created_on : Nat
  commands_mode : JobCommandsMode
  progress : Option JobProgress
deriving DecidableEq, Repr

/-- In-flight upload session::job::FileTransfer. The open file handle fh
is modelled by the byte contents written through it so far; timestamps are
abstract Nat instants. -/
structure FileTransfer where
  contents : List Nat
  file_name : String
  last_index : Nat
  last_activity : Nat
deriving DecidableEq, Repr

/-- The session::job::Job record. On-disk paths are not stored: directory
contents are passed to each operation explicitly; the runner is modelled by
the outcome parameters of each operation; additional_files maps a file
name to its recorded size. -/
structure Job where
  name : String
  commands : Option Commands
  raw_commands : Option String
  file_transfers : List (Nat × FileTransfer)
  additional_files : List (String × Nat)
  file_transfer_timeout : Nat
  created_on : Nat
deriving DecidableEq, Repr

/-- Modulus of Rust u32 arithmetic. -/
def U32_MOD : Nat := 4294967296

/-- Value of u32::MAX, the initial last_index of a new transfer. -/
def U32_MAX : Nat := 4294967295

/-- List RESERVED_FILE_NAMES of mmb/additional_files.rs. -/
def RESERVED_FILE_NAMES : List String :=
  [CMDS_FILE_NAME, DOUT_FILE_NAME, PGRS_FILE_NAME, PARAMS_FILE_NAME, ("frame.pdb")]

/-- Function is_reserved_file_name of mmb/additional_files.rs: the
lowercased name must not be a reserved name and the name must not start
with a stage-artifact base. -/
def is_reserved_file_name (name : String) : Bool :=
  RESERVED_FILE_NAMES.any (fun s => decide (s = str_to_lower name)) ||
  str_starts_with name TRAJECTORY_FILE_BASE ||
  str_starts_with name LAST_FRAME_FILE_BASE

/-- Method Job::commands_mode of session/job.rs (the leading assertion that
both command kinds are never set together is the invariant proved for claim
C9). -/
def Job.commands_mode (j : Job) : JobCommandsMode :=
  if j.commands.isSome then JobCommandsMode.Synthetic
  else if j.raw_commands.isSome then JobCommandsMode.Raw
  else JobCommandsMode.None

/-- Method Job::info of session/job.rs. The runner query and the progress
file read are effectful in the source; their observed outcomes are the
executor_state_result and progress_result parameters (a progress file that
is absent, empty, or advisorily locked by the engine reads as ok none).
files is the job directory listing. -/
def Job.info (j : Job) (executor_state_result : Except String State)
    (progress_result : Except String (Option Progress)) (files : List String) :
    Except String JobInfo :=
  match executor_state_result with
  | .error e => .error e
  | .ok executor_state =>
    match progress_result with
    | .error e => .error e
    | .ok maybe_progress =>
      let fl := first_last_stages (get_stages files TRAJECTORY_FILE_BASE)
      match maybe_progress with
      | some progress =>
        let reported_state :=
          if executor_state = State.Running then State.Running
          else if progress.state = State.Running ∧ executor_state ≠ State.Running then State.Failed
          else progress.state
        .ok {name := j.name, state := reported_state, first_stage := fl.1, last_stage := fl.2,
             created_on := j.created_on, commands_mode := j.commands_mode,
             progress := some {step := progress.step, total_steps := progress.total_steps}}
      | none =>
        let reported_state :=
          if executor_state = State.Unknown then State.NotStarted else executor_state
        .ok {name := j.name, state := reported_state, first_stage := fl.1, last_stage := fl.2,
             created_on := j.created_on, commands_mode := j.commands_mode, progress := none}

/-- Update of the transfer stored under a key, leaving the rest of the map
unchanged (the in-place mutation through HashMap::get_mut in the source). -/
def update_transfer (id : Nat) (f : FileTransfer → FileTransfer) :
    List (Nat × FileTransfer) → List (Nat × FileTransfer)
  | [] => []
  | (k, x) :: rest =>
    if k = id then (k, f x) :: rest else (k, x) :: update_transfer id f rest

/-- Method Job::init_upload of session/job.rs. The fresh transfer id drawn
from Uuid::new_v4 and the current instant are parameters; create_ok is the
outcome of File::create. Returns the call result and the post-state. -/
def Job.init_upload (j : Job) (file_name : String) (id : Nat) (now : Nat)
    (create_ok : Bool) : Except String Nat × Job :=
  if (j.file_transfers.lookup id).isSome then
    (.error ("File transfer with such id already exists"), j)
  else if j.file_transfers.any (fun kv => decide (kv.2.file_name = file_name)) then
    (.error ("Transfer with such file name already exists"), j)
  else if is_reserved_file_name file_name then
    (.error ("Filename is reserved"), j)
  else if ¬ create_ok then
    (.error ("Cannot create file"), j)
  else
    (.ok id, {j with file_transfers :=
      (id, {contents := [], file_name := file_name, last_index := U32_MAX,
            last_activity := now}) :: j.file_transfers})

/-- Method Job::upload_chunk of session/job.rs: the write to the
destination file is attempted only when the chunk index is the wrapping
successor of the last accepted index. write_result is the observed outcome
of fh.write: ok n means n bytes of the chunk were written — the source
ignores the count, so a partial write still advances last_index — while
error e means no bytes were written (the Rust Write contract on Err) and
the call returns an error without touching the transfer. Returns the call
result and the post-state. -/
def Job.upload_chunk (j : Job) (transfer_id : Nat) (index : Nat) (chunk : List Nat)
    (now : Nat) (write_result : Except String Nat) : Except String Unit × Job :=
  match j.file_transfers.lookup transfer_id with
  | some xfr =>
    let expected_index := (xfr.last_index + 1) % U32_MOD
    if index ≠ expected_index then (.error ("Invalid chunk index"), j)
    else
      match write_result with
      | .error e => (.error (("Failed to write file: ") ++ e), j)
      | .ok n =>
        let bump : FileTransfer → FileTransfer := fun x =>
          {x with contents := x.contents ++ chunk.take n, last_index := expected_index, last_activity := now}
        let new_transfers := update_transfer transfer_id bump j.file_transfers
        (.ok (), {j with file_transfers := new_transfers})
  | none => (.error ("No such transfer"), j)

/-- Result of Job::create of session/job.rs: the leading assert! that both
command kinds must not be supplied together is modelled by the
assertionFailed outcome. -/
inductive JobCreateResult where
  | assertionFailed
  | error (e : JobError)
  | ok (j : Job)
deriving DecidableEq, Repr

/-- Method Job::create of session/job.rs: after the mutual-exclusion
assertion the runner is constructed (runner_ok is its outcome) and the Job
value is assembled; the supplied commands are stored as given, without any
parsing. -/
def Job.create (name : String) (commands : Option Commands) (raw_commands : Option String)
    (runner_ok : Bool) (now : Nat) : JobCreateResult :=
  if commands.isSome ∧ raw_commands.isSome then .assertionFailed
  else if ¬ runner_ok then .error .InternalError
  else .ok {name := name, commands := commands, raw_commands := raw_commands,
            file_transfers := [], additional_files := [], file_transfer_timeout := 30,
            created_on := now}

/-- Function copy_job_dir of session/job.rs on directory listings: every
source entry except the progress and diagnostics files is copied into the
target (copying over an existing entry overwrites it, so the listing gains
no duplicate). -/
def copy_job_dir (tgt src : List String) : List String :=
  src.foldl (fun acc name =>
    if name = PGRS_FILE_NAME ∨ name = DOUT_FILE_NAME then acc
    else if name ∈ acc then acc else acc ++ [name]) tgt

/-- Method Job::clone of session/job.rs: refused while the source has open
transfers, then the directory is copied (copy_ok is the I/O outcome; a
failed copy is modelled as copying nothing) and a fresh runner is made
(runner_ok). tgt_files and src_files are the listings of the two
directories. -/
def Job.clone (name : String) (src : Job) (tgt_files src_files : List String)
    (copy_ok runner_ok : Bool) (now : Nat) : Except JobError (Job × List String) :=
  if src.file_transfers ≠ [] then
    .error (.BadInput ("Jobs with active file transfers cannot be cloned"))
  else if ¬ copy_ok then .error .InternalError
  else if ¬ runner_ok then .error .InternalError
  else
    .ok ({name := name, commands := src.commands, raw_commands := src.raw_commands,
          file_transfers := [], additional_files := src.additional_files,
          file_transfer_timeout := src.file_transfer_timeout, created_on := now},
         copy_job_dir tgt_files src_files)

/-- Guard shared by Job::start and Job::start_raw of session/job.rs: the
job reports Running (an info error is ignored, as in the source, where the
if-let on self.info() simply falls through). -/
def info_running (j : Job) (es : Except String State)
    (mp : Except String (Option Progress)) (files : List String) : Bool :=
  match Job.info j es mp files with
  | .ok info => decide (info.state = State.Running)
  | .error _ => false

/-- Method Job::start of session/job.rs: refuse while the job reports
Running, refuse in raw mode, store the commands, then prune, write the
command file and start the runner (their outcomes are the last three
parameters). Returns the call result and the post-state. -/
def Job.start (j : Job) (commands : Commands) (es : Except String State)
    (mp : Except String (Option Progress)) (files : List String)
    (prune_ok write_ok runner_start_ok : Bool) : Except JobError Unit × Job :=
  if info_running j es mp files then (.error (.BadInput ("Job is already running")), j)
  else if j.raw_commands.isSome then
    (.error (.BadInput ("Job created in raw commands mode cannot be run in synthetic commands mode")), j)
  else
    let j1 := {j with commands := some commands}
    if ¬ prune_ok then (.error .InternalError, j1)
    else if ¬ write_ok then (.error .InternalError, j1)
    else if ¬ runner_start_ok then (.error .InternalError, j1)
    else (.ok (), j1)

/-- Method Job::start_raw of session/job.rs: refuse while the job reports
Running, refuse in synthetic mode, pre-parse the raw commands (a parse
failure is BadInput), prune, write the raw command file, store the raw
commands, start the runner. Returns the call result and the post-state. -/
def Job.start_raw (j : Job) (raw_commands : String) (es : Except String State)
    (mp : Except String (Option Progress)) (files : List String)
    (prune_ok write_ok runner_start_ok : Bool) : Except JobError Unit × Job :=
  if info_running j es mp files then (.error (.BadInput ("Job is already running")), j)
  else if j.commands.isSome then
    (.error (.BadInput ("Job created in synthetic commands mode cannot be run in raw commands mode")), j)
  else
    match parse_raw raw_commands with
    | .error _ => (.error (.BadInput ("Raw commands are invalid")), j)
    | .ok _ =>
      if ¬ prune_ok then (.error .InternalError, j)
      else if ¬ write_ok then (.error .InternalError, j)
      else
        let j1 := {j with raw_commands := some raw_commands}
        if ¬ runner_start_ok then (.error .InternalError, j1)
        else (.ok (), j1)

/-! Runner backends, from session/local_job_runner.rs and
session/pbs_job_runner.rs. -/

/-- Observable outcome of Child::try_wait on the local child process:
no poll possible is modelled by the err case. -/
inductive ChildPoll where
  | exited (success : Bool)
  | stillRunning
  | err (msg : String)
deriving DecidableEq, Repr

/-- Function check_process of session/local_job_runner.rs: no child handle
means Unknown; a clean exit is Finished, an abnormal exit Failed, a live
child Running. -/
def check_process (proc : Option ChildPoll) : Except String State :=
  match proc with
  | none => .ok State.Unknown
  | some (.exited success) => if success then .ok State.Finished else .ok State.Failed
  | some .stillRunning => .ok State.Running
  | some (.err e) => .error e

/-- Scheduler queue states pbs::JobState of pbs/mod.rs. -/
inductive PbsJobState where
  | Queued
  | Held
  | Running
  | Exiting
  | Finished
  | Unknown
deriving DecidableEq, Repr

/-- Method PbsJobRunner::executor_state of session/pbs_job_runner.rs:
NotStarted when no job number was ever assigned, otherwise the mapped
result of the qstat query (query_result is its observed outcome). -/
def PbsJobRunner.executor_state (job_no : Option Nat)
    (query_result : Except String PbsJobState) : Except String State :=
  match job_no with
  | none => .ok State.NotStarted
  | some _ =>
    match query_result with
    | .error e => .error e
    | .ok s =>
      match s with
      | .Queued => .ok State.Queued
      | .Held => .ok State.Failed
      | .Running => .ok State.Running
      | .Exiting => .ok State.Running
      | .Finished => .ok State.Finished
      | .Unknown => .ok State.Unknown

/-! Chunked-upload wire format, from server/file_transfer_chunk.rs. -/

/-- Leading-byte classification of UTF-8 validation: the number of
continuation bytes a leading byte demands together with the allowed range
of the first continuation byte (none for an invalid leading byte). The
table matches Rust String::from_utf8: overlong encodings, surrogates and
out-of-range code points are invalid. -/
def utf8_req (b : Nat) : Option (Nat × Nat × Nat) :=
  if b < 128 then some (0, 0, 0)
  else if 194 ≤ b ∧ b ≤ 223 then some (1, 128, 191)
  else if b = 224 then some (2, 160, 191)
  else if (225 ≤ b ∧ b ≤ 236) ∨ b = 238 ∨ b = 239 then some (2, 128, 191)
  else if b = 237 then some (2, 128, 159)
  else if b = 240 then some (3, 144, 191)
  else if 241 ≤ b ∧ b ≤ 243 then some (3, 128, 191)
  else if b = 244 then some (3, 128, 143)
  else none

/-- Validation walk: when k is zero the next byte must be a valid leading
byte, otherwise k continuation bytes are consumed, the first inside
[lo, hi] and the rest inside the generic continuation range. -/
def utf8_valid_go : List Nat → Nat → Nat → Nat → Bool
  | [], 0, _, _ => true
  | [], _ + 1, _, _ => false
  | b :: rest, 0, _, _ =>
    match utf8_req b with
    | some (k, lo, hi) => utf8_valid_go rest k lo hi
    | none => false
  | c :: rest, k + 1, lo, hi => decide (lo ≤ c ∧ c ≤ hi) && utf8_valid_go rest k 128 191

/-- Validity of a byte sequence as UTF-8, as checked by Rust
String::from_utf8. -/
def utf8_valid (l : List Nat) : Bool :=
  utf8_valid_go l 0 0 0

/-- Decoded frame api::FileTransferChunk of server/api.rs. The two id
fields are Strings in the source, produced by String::from_utf8 over
exactly the bytes kept here; they are modelled by those byte sequences. -/
structure FileTransferChunk where
  job_id : List Nat
  transfer_id : List Nat
  index : Nat
  data : List Nat
deriving DecidableEq, Repr

/-- Value of u32::from_le_bytes on a four-byte slice. -/
def le_u32 (bs : List Nat) : Nat :=
  match bs with
  | [b0, b1, b2, b3] => b0 + 256 * b1 + 65536 * b2 + 16777216 * b3
  | _ => 0

/-- Method FileTransferChunk::from_bytes of server/file_transfer_chunk.rs:
frames shorter than 77 bytes are rejected, then 36 bytes of job id text,
36 bytes of transfer id text, a 4-byte little-endian u32 index and the
remaining bytes as payload. -/
def FileTransferChunk.from_bytes (v : List Nat) : Except String FileTransferChunk :=
  if v.length < 77 then .error ("Array must be at least 77 bytes long")
  else if ¬ utf8_valid (v.take 36) then
    .error ("job_id part is not a valid UTF-8 byte sequence")
  else if ¬ utf8_valid ((v.drop 36).take 36) then
    .error ("transfer_id part is not a valid UTF-8 byte sequence")
  else .ok {job_id := v.take 36, transfer_id := (v.drop 36).take 36,
            index := le_u32 ((v.drop 72).take 4), data := v.drop 76}

/-! Session-level cloning, from session/session.rs. -/

/-- Method Session::clone_job of session/session.rs. jobs is the
session's job map (Uuid keys as Nat); world maps each job id to its
directory listing; new_id is the freshly drawn Uuid; src_es and src_mp are
the observed runner-state and progress-read outcomes of the source job's
info call. prepare_job_dir creates the new directory seeded with the shared
parameters file before Job::clone runs. Returns the call result, the job
map and the directory world after the call. -/
def Session.clone_job (jobs : List (Nat × Job)) (world : List (Nat × List String))
    (name : String) (src_id new_id : Nat) (src_es : Except String State)
    (src_mp : Except String (Option Progress)) (copy_ok runner_ok : Bool) (now : Nat) :
    Except JobError Nat × List (Nat × Job) × List (Nat × List String) :=
  if str_len name < 1 then (.error (.BadInput ("Job must have a name")), jobs, world)
  else if jobs.any (fun kv => decide (kv.2.name = name)) then
    (.error (.BadInput ("Job with name " ++ name ++ " already exists")), jobs, world)
  else
    match jobs.lookup src_id with
    | none => (.error (.BadInput ("No job to clone")), jobs, world)
    | some src =>
      match Job.info src src_es src_mp ((world.lookup src_id).getD []) with
      | .error _ => (.error .InternalError, jobs, world)
      | .ok info =>
        if info.state = State.Running then
          (.error (.BadInput ("Running jobs cannot be cloned")), jobs, world)
        else
          match world.lookup new_id with
          | some _ => (.error .InternalError, jobs, world)
          | none =>
            match Job.clone name src [PARAMS_FILE_NAME] ((world.lookup src_id).getD [])
                copy_ok runner_ok now with
            | .ok (job, tgt_files) =>
              (.ok new_id, (new_id, job) :: jobs, (new_id, tgt_files) :: world)
            | .error e => (.error e, jobs, (new_id, [PARAMS_FILE_NAME]) :: world)

/-! Sample values used to anchor the claims on concrete inputs. -/

/-- A job with no commands and no transfers. -/
def sample_job : Job :=
  {name := ("job"), commands := none, raw_commands := none, file_transfers := [],
   additional_files := [], file_transfer_timeout := 30, created_on := 0}

/-- A freshly initialised transfer, as produced by init_upload. -/
def sample_transfer : FileTransfer :=
  {contents := [], file_name := ("data.bin"), last_index := U32_MAX, last_activity := 0}

/-- A job with one open file transfer. -/
def xfer_job : Job :=
  {name := ("src"), commands := none, raw_commands := none,
   file_transfers := [(7, sample_transfer)], additional_files := [],
   file_transfer_timeout := 30, created_on := 0}

/-- Directory listing {trajectory.1, trajectory.2, trajectory.4,
trajectory.5} of the spec scenario. -/
def sample_traj_files : List String :=
  [("trajectory.1.pdb"), ("trajectory.2.pdb"), ("trajectory.4.pdb"), ("trajectory.5.pdb")]

/-! Claim theorems. -/

/-- Unified state of the claim C1 wording: with no progress data the
executor state is reported, except that Unknown maps to NotStarted; with
progress data, a Running executor wins, a progress file claiming Running
against a non-Running executor reports Failed, and otherwise the progress
state is reported. -/
def claimed_info_state (executor_state : State) (maybe_progress : Option Progress) : State :=
  match maybe_progress with
  | none => if executor_state = State.Unknown then State.NotStarted else executor_state
  | some p =>
    if executor_state = State.Running then State.Running
    else if p.state = State.Running then State.Failed
    else p.state

/-- Claim C1: Job::info reports the unified state claimed_info_state of
the executor state and the progress data, and on the spec scenario of a
progress file claiming Running with an exited executor it reports
Failed. -/
theorem claim_C1_info_unified_state :
    (∀ (j : Job) (es : State) (mp : Option Progress) (files : List String),
      Job.info j (.ok es) (.ok mp) files =
        .ok {name := j.name, state := claimed_info_state es mp,
             first_stage := (first_last_stages (get_stages files TRAJECTORY_FILE_BASE)).1,
             last_stage := (first_last_stages (get_stages files TRAJECTORY_FILE_BASE)).2,
             created_on := j.created_on, commands_mode := j.commands_mode,
             progress := mp.map (fun p => {step := p.step, total_steps := p.total_steps})}) ∧
    Job.info sample_job (.ok State.Finished)
        (.ok (some {state := State.Running, step := 5, total_steps := 10})) [] =
      .ok {name := ("job"), state := State.Failed, first_stage := 0, last_stage := 0,
           created_on := 0, commands_mode := JobCommandsMode.None,
           progress := some {step := 5, total_steps := 10}} := by
  constructor
  · intro j es mp files
    cases mp with
    | none => rfl
    | some p =>
      simp only [Job.info, claimed_info_state, Option.map]
      by_cases hes : es = State.Running
      · simp [hes]
      · by_cases hp : p.state = State.Running
        · simp [hes, hp]
        · simp [hes, hp]
  · decide

/-- Lookup after updating the transfer stored under the same key. -/
theorem lookup_update_transfer (tid : Nat) (f : FileTransfer → FileTransfer) :
    ∀ (l : List (Nat × FileTransfer)) (xfr : FileTransfer), l.lookup tid = some xfr →
      (update_transfer tid f l).lookup tid = some (f xfr) := by
  intro l
  induction l with
  | nil => intro xfr h; cases h
  | cons kv rest ih =>
    intro xfr h
    obtain ⟨k, x⟩ := kv
    by_cases hk : tid = k
    · subst hk
      simp only [List.lookup, beq_self_eq_true] at h
      cases h
      simp [update_transfer, List.lookup]
    · have hbeq : (tid == k) = false := beq_false_of_ne hk
      have hk2 : ¬(k = tid) := fun hh => hk hh.symm
      simp only [List.lookup, hbeq] at h
      simp only [update_transfer, if_neg hk2, List.lookup, hbeq]
      exact ih xfr h

/-- Claim C2: a chunk can be accepted only when its index is the wrapping
successor (modulo 2^32) of the transfer's last accepted index; a chunk with
any other index is rejected before the write is attempted, leaving the
whole job (file contents, last index, last activity) unchanged; a
correctly-indexed chunk whose write fails returns an error without
advancing last_index or last_activity (and, by the Write contract, without
bytes written); a correctly-indexed chunk whose write puts n bytes is
accepted, appends those bytes and advances the index — the source ignores
the written count, so a partial write still advances it; init_upload
initialises the last accepted index to u32::MAX, whose wrapping successor
is 0, so the first accepted index is 0. -/
theorem claim_C2_upload_chunk_sequencing :
    (∀ (j : Job) (tid idx : Nat) (chunk : List Nat) (now : Nat) (wr : Except String Nat)
        (xfr : FileTransfer),
      j.file_transfers.lookup tid = some xfr →
        ((Job.upload_chunk j tid idx chunk now wr).1 = .ok () →
          idx = (xfr.last_index + 1) % U32_MOD) ∧
        (idx ≠ (xfr.last_index + 1) % U32_MOD →
          Job.upload_chunk j tid idx chunk now wr = (.error ("Invalid chunk index"), j)) ∧
        (∀ e, idx = (xfr.last_index + 1) % U32_MOD → wr = .error e →
          Job.upload_chunk j tid idx chunk now wr =
            (.error (("Failed to write file: ") ++ e), j)) ∧
        (∀ n, idx = (xfr.last_index + 1) % U32_MOD → wr = .ok n →
          (Job.upload_chunk j tid idx chunk now wr).1 = .ok () ∧
          (Job.upload_chunk j tid idx chunk now wr).2.file_transfers.lookup tid =
            some {xfr with contents := xfr.contents ++ chunk.take n, last_index := idx, last_activity := now})) ∧
    (∀ (j : Job) (fn : String) (id now : Nat) (r : Except String Nat) (j' : Job),
      Job.init_upload j fn id now true = (r, j') → r = .ok id →
        j'.file_transfers.lookup id =
          some {contents := [], file_name := fn, last_index := U32_MAX, last_activity := now}) ∧
    (U32_MAX + 1) % U32_MOD = 0 := by
  refine ⟨?_, ?_, by decide⟩
  · intro j tid idx chunk now wr xfr h
    refine ⟨?_, ?_, ?_, ?_⟩
    · intro hok
      by_contra hne
      simp [Job.upload_chunk, h, hne] at hok
    · intro hne
      simp [Job.upload_chunk, h, hne]
    · intro e he hwr
      subst he
      subst hwr
      have hni : ¬((xfr.last_index + 1) % U32_MOD ≠ (xfr.last_index + 1) % U32_MOD) :=
        fun hh => hh rfl
      simp only [Job.upload_chunk, h, if_neg hni]
    · intro n he hwr
      subst he
      subst hwr
      have hni : ¬((xfr.last_index + 1) % U32_MOD ≠ (xfr.last_index + 1) % U32_MOD) :=
        fun hh => hh rfl
      refine ⟨by simp only [Job.upload_chunk, h, if_neg hni], ?_⟩
      simp only [Job.upload_chunk, h, if_neg hni]
      exact lookup_update_transfer tid _ j.file_transfers xfr h
  · intro j fn id now r j' h hok
    simp only [Job.init_upload] at h
    split at h
    · cases h; simp at hok
    split at h
    · cases h; simp at hok
    split at h
    · cases h; simp at hok
    split at h
    · cases h; simp at hok
    cases h
    simp [List.lookup]

/-- Claim C2 witness: on a job with one freshly initialised transfer, the
chunk with index 0 whose two bytes are written is accepted, the chunk with
index 3 is rejected without any change to the job, and the chunk with
index 0 whose write fails errors without any change to the job. -/
theorem claim_C2_witness :
    (Job.upload_chunk xfer_job 7 0 [1, 2] 5 (.ok 2)).1 = .ok () ∧
    Job.upload_chunk xfer_job 7 3 [9] 5 (.ok 1) = (.error ("Invalid chunk index"), xfer_job) ∧
    Job.upload_chunk xfer_job 7 0 [9] 5 (.error ("disk full")) =
      (.error ("Failed to write file: disk full"), xfer_job) := by
  have h := claim_C2_upload_chunk_sequencing.1 xfer_job 7 0 [1, 2] 5 (.ok 2) sample_transfer
    (by decide)
  have h2 := claim_C2_upload_chunk_sequencing.1 xfer_job 7 3 [9] 5 (.ok 1) sample_transfer
    (by decide)
  have h3 := claim_C2_upload_chunk_sequencing.1 xfer_job 7 0 [9] 5 (.error ("disk full"))
    sample_transfer (by decide)
  exact ⟨(h.2.2.2 2 (by decide) rfl).1, h2.2.1 (by decide),
    h3.2.2.1 ("disk full") (by decide) rfl⟩

/-- Invariant of claim C9: a job does not hold structured and raw commands
at the same time. -/
def not_both (j : Job) : Prop :=
  ¬(j.commands.isSome = true ∧ j.raw_commands.isSome = true)

/-- Claim C9: Job::create refuses both command kinds at once (the
assertion fires) and otherwise yields a job respecting the invariant;
Job::start refuses with BadInput when raw commands are set and preserves
the invariant; Job::start_raw refuses with BadInput when structured
commands are set and preserves the invariant; Job::clone copies the
command fields and so preserves the invariant. -/
theorem claim_C9_commands_mutually_exclusive :
    (∀ (name : String) (c : Option Commands) (r : Option String) (ro : Bool) (now : Nat),
      c.isSome = true → r.isSome = true → Job.create name c r ro now = .assertionFailed) ∧
    (∀ (name : String) (c : Option Commands) (r : Option String) (ro : Bool) (now : Nat)
        (j : Job), Job.create name c r ro now = .ok j → not_both j) ∧
    (∀ (j : Job) (cmds : Commands) (es : Except String State)
        (mp : Except String (Option Progress)) (files : List String) (po wo rs : Bool),
      not_both j → not_both (Job.start j cmds es mp files po wo rs).2) ∧
    (∀ (j : Job) (cmds : Commands) (es : Except String State)
        (mp : Except String (Option Progress)) (files : List String) (po wo rs : Bool),
      j.raw_commands.isSome = true →
        ∃ m, Job.start j cmds es mp files po wo rs = (.error (.BadInput m), j)) ∧
    (∀ (j : Job) (raw : String) (es : Except String State)
        (mp : Except String (Option Progress)) (files : List String) (po wo rs : Bool),
      not_both j → not_both (Job.start_raw j raw es mp files po wo rs).2) ∧
    (∀ (j : Job) (raw : String) (es : Except String State)
        (mp : Except String (Option Progress)) (files : List String) (po wo rs : Bool),
      j.commands.isSome = true →
        ∃ m, Job.start_raw j raw es mp files po wo rs = (.error (.BadInput m), j)) ∧
    (∀ (name : String) (src : Job) (tf sf : List String) (co ro : Bool) (now : Nat)
        (j' : Job) (fs' : List String), not_both src →
      Job.clone name src tf sf co ro now = .ok (j', fs') → not_both j') := by
  refine ⟨?_, ?_, ?_, ?_, ?_, ?_, ?_⟩
  · intro name c r ro now h1 h2
    simp [Job.create, h1, h2]
  · intro name c r ro now j h
    simp only [Job.create] at h
    split at h
    · cases h
    split at h
    · cases h
    rename_i hng _
    cases h
    exact hng
  · intro j cmds es mp files po wo rs hnb
    simp only [Job.start]
    split
    · exact hnb
    split
    · exact hnb
    rename_i hraw
    simp only [not_both, Bool.not_eq_true] at *
    split
    · simp [hraw]
    split
    · simp [hraw]
    split
    · simp [hraw]
    · simp [hraw]
  · intro j cmds es mp files po wo rs hraw
    by_cases hr : info_running j es mp files
    · exact ⟨("Job is already running"), by simp [Job.start, hr]⟩
    · exact ⟨("Job created in raw commands mode cannot be run in synthetic commands mode"),
        by simp [Job.start, hr, hraw]⟩
  · intro j raw es mp files po wo rs hnb
    simp only [Job.start_raw]
    split
    · exact hnb
    split
    · exact hnb
    rename_i hcmds
    simp only [not_both, Bool.not_eq_true] at *
    split
    · exact fun hh => hnb hh
    split
    · simp [hcmds]
    split
    · simp [hcmds]
    split
    · simp [hcmds]
    · simp [hcmds]
  · intro j raw es mp files po wo rs hcmds
    by_cases hr : info_running j es mp files
    · exact ⟨("Job is already running"), by simp [Job.start_raw, hr]⟩
    · exact ⟨("Job created in synthetic commands mode cannot be run in raw commands mode"),
        by simp [Job.start_raw, hr, hcmds]⟩
  · intro name src tf sf co ro now j' fs' hnb h
    simp only [Job.clone] at h
    split at h
    · cases h
    split at h
    · cases h
    split at h
    · cases h
    cases h
    exact hnb

/-- Claim C9 witness: the assertion fires on a creation call supplying both
command kinds, and a start call on a fresh job yields a state satisfying
the invariant. -/
theorem claim_C9_witness :
    Job.create ("j") (some {first_stage := 1, last_stage := 1, stage := 1}) (some ("x")) true 0 =
      .assertionFailed ∧
    not_both (Job.start sample_job {first_stage := 1, last_stage := 1, stage := 1}
      (.ok State.NotStarted) (.ok none) [] true true true).2 := by
  constructor
  · exact claim_C9_commands_mutually_exclusive.1 ("j")
      (some {first_stage := 1, last_stage := 1, stage := 1}) (some ("x")) true 0
      (by decide) (by decide)
  · exact claim_C9_commands_mutually_exclusive.2.2.1 sample_job
      {first_stage := 1, last_stage := 1, stage := 1} (.ok State.NotStarted) (.ok none) []
      true true true (by intro h; simp [sample_job] at h)

/-- Claim C7 counterexample: a cluster (PBS) runner that was never started
reports NotStarted from executor_state, not Unknown as the claim states. -/
theorem claim_C7_counterexample :
    PbsJobRunner.executor_state none (.ok PbsJobState.Unknown) = .ok State.NotStarted ∧
    State.NotStarted ≠ State.Unknown := by
  exact ⟨rfl, by decide⟩

/-- Claim C7 as amended: the local runner's check_process reports Unknown
for a never-started child, Finished for a clean exit, Failed for an
abnormal exit and Running for a live child; the cluster runner reports
NotStarted when it was never started, whatever the queue query would say. -/
theorem claim_C7_amended :
    check_process none = .ok State.Unknown ∧
    check_process (some (.exited true)) = .ok State.Finished ∧
    check_process (some (.exited false)) = .ok State.Failed ∧
    check_process (some .stillRunning) = .ok State.Running ∧
    (∀ q, PbsJobRunner.executor_state none q = .ok State.NotStarted) := by
  refine ⟨rfl, rfl, rfl, rfl, fun q => rfl⟩

/-- Claim C6 counterexample: a frame of exactly 76 bytes, which the claim
says is decoded (36 + 36 + 4 byte header with empty payload), is rejected
by from_bytes, whose minimum is 77 bytes. -/
theorem claim_C6_counterexample :
    FileTransferChunk.from_bytes (List.replicate 76 48) =
      .error ("Array must be at least 77 bytes long") := by decide

/-- Claim C6 as amended: a frame of at least 77 bytes whose two id fields
are valid UTF-8 is decoded as 36 bytes of job id text, 36 bytes of transfer
id text, a 4-byte little-endian u32 chunk index and the remaining bytes as
payload; any shorter frame (in particular the 76-byte frame with an empty
payload) is rejected with an error before reaching the Job. -/
theorem claim_C6_amended :
    (∀ v : List Nat, v.length < 77 → ∃ e, FileTransferChunk.from_bytes v = .error e) ∧
    (∀ v : List Nat, 77 ≤ v.length → utf8_valid (v.take 36) = true →
      utf8_valid ((v.drop 36).take 36) = true →
      FileTransferChunk.from_bytes v =
        .ok {job_id := v.take 36, transfer_id := (v.drop 36).take 36,
             index := le_u32 ((v.drop 72).take 4), data := v.drop 76}) := by
  constructor
  · intro v h
    exact ⟨("Array must be at least 77 bytes long"), by
      simp [FileTransferChunk.from_bytes, h]⟩
  · intro v h h1 h2
    simp [FileTransferChunk.from_bytes, Nat.not_lt.2 h, h1, h2]

/-- Claim C6 witness: the amended theorem evaluated on the 77-byte frame of
ASCII zero bytes. -/
theorem claim_C6_witness :
    FileTransferChunk.from_bytes (List.replicate 77 48) =
      .ok {job_id := List.replicate 36 48, transfer_id := List.replicate 36 48,
           index := 808464432, data := [48]} := by
  refine (claim_C6_amended.2 (List.replicate 77 48) (by decide) (by decide) (by decide)).trans ?_
  decide

/-- Claim C8 counterexample: Job::create performs no stage pre-parsing: a
job is constructed with raw commands that do not parse at all, although the
claim requires the stage numbers to be successfully pre-parsed before the
Job value is considered constructed. -/
theorem claim_C8_counterexample :
    Job.create ("j") none (some ("bogus")) true 0 =
      .ok {name := ("j"), commands := none, raw_commands := some ("bogus"),
           file_transfers := [], additional_files := [], file_transfer_timeout := 30,
           created_on := 0} ∧
    parse_raw ("bogus") = .error ("firstStage was not specified or is invalid") := by
  exact ⟨by decide, by decide⟩

/-- Claim C8 as amended: Job::create stores the supplied commands without
any stage pre-parsing (a job is constructed even when its raw commands do
not parse); stage pre-parsing happens at start time instead: parse_raw
rejects multi-stage spans, so any successfully parsed raw commands have
first_stage equal to last_stage, and start_raw rejects raw commands that
fail to parse with BadInput, leaving the job unchanged. -/
theorem claim_C8_amended :
    (∀ (name raw : String) (now : Nat),
      Job.create name none (some raw) true now =
        .ok {name := name, commands := none, raw_commands := some raw, file_transfers := [],
             additional_files := [], file_transfer_timeout := 30, created_on := now}) ∧
    (∀ raw p, parse_raw raw = .ok p → p.first_stage = p.last_stage) ∧
    (∀ (j : Job) (raw : String) (es : Except String State)
        (mp : Except String (Option Progress)) (files : List String) (po wo rs : Bool)
        (e : String), parse_raw raw = .error e →
      ∃ m, Job.start_raw j raw es mp files po wo rs = (.error (.BadInput m), j)) := by
  refine ⟨fun name raw now => by simp [Job.create], ?_, ?_⟩
  · intro raw p h
    simp only [parse_raw] at h
    split at h
    · cases h
    split at h
    · cases h
    split at h
    · cases h
    split at h
    · cases h
    split at h
    · cases h
    split at h
    · cases h
    rename_i h2 _
    cases h
    exact Decidable.of_not_not h2
  · intro j raw es mp files po wo rs e h
    by_cases hr : info_running j es mp files
    · exact ⟨("Job is already running"), by simp [Job.start_raw, hr]⟩
    · by_cases hc : j.commands.isSome
      · exact ⟨("Job created in synthetic commands mode cannot be run in raw commands mode"),
          by simp [Job.start_raw, hr, hc]⟩
      · exact ⟨("Raw commands are invalid"), by simp [Job.start_raw, hr, hc, h]⟩

/-- Claim C8 witness: the amended theorem evaluated on unparseable raw
commands given to start_raw on a fresh job. -/
theorem claim_C8_witness :
    ∃ m, Job.start_raw sample_job ("bogus") (.ok State.NotStarted) (.ok none) [] true true true =
      (.error (.BadInput m), sample_job) := by
  exact claim_C8_amended.2.2 sample_job ("bogus") (.ok State.NotStarted) (.ok none) [] true true
    true ("firstStage was not specified or is invalid") (by decide)

/-- Claim C5 counterexample: cloning a non-running job with one open
transfer fails with BadInput before any directory copy, but the new job
directory was already created and seeded with the shared parameters file,
so a new directory is left behind, contrary to the claim. -/
theorem claim_C5_counterexample :
    Session.clone_job [(1, xfer_job)] [(1, [("commands.txt")])] ("copy") 1 2
        (.ok State.NotStarted) (.ok none) true true 0 =
      (.error (.BadInput ("Jobs with active file transfers cannot be cloned")), [(1, xfer_job)],
       [(2, [("parameters.csv")]), (1, [("commands.txt")])]) ∧
    ([(2, [("parameters.csv")]), (1, [("commands.txt")])] : List (Nat × List String)) ≠
      [(1, [("commands.txt")])] := by
  exact ⟨by decide, by decide⟩

/-- Claim C5 as amended: cloning a job whose reported state is Running
fails with BadInput and changes neither the job map nor any directory;
cloning a non-running job with at least one open transfer fails with
BadInput before any directory copy is attempted — no job is added and no
source content is copied — but the freshly created job directory, holding
only the seeded parameters file, is left behind. -/
theorem claim_C5_clone_running_or_open_transfers :
    (∀ (jobs : List (Nat × Job)) (world : List (Nat × List String)) (name : String)
        (src_id new_id : Nat) (src : Job) (es : Except String State)
        (mp : Except String (Option Progress)) (co ro : Bool) (now : Nat) (ji : JobInfo),
      jobs.lookup src_id = some src →
      Job.info src es mp ((world.lookup src_id).getD []) = .ok ji →
      ji.state = State.Running →
      ∃ m, Session.clone_job jobs world name src_id new_id es mp co ro now =
        (.error (.BadInput m), jobs, world)) ∧
    (∀ (jobs : List (Nat × Job)) (world : List (Nat × List String)) (name : String)
        (src_id new_id : Nat) (src : Job) (es : Except String State)
        (mp : Except String (Option Progress)) (co ro : Bool) (now : Nat) (ji : JobInfo),
      jobs.lookup src_id = some src →
      ¬ str_len name < 1 →
      jobs.any (fun kv => decide (kv.2.name = name)) = false →
      Job.info src es mp ((world.lookup src_id).getD []) = .ok ji →
      ji.state ≠ State.Running →
      world.lookup new_id = none →
      src.file_transfers ≠ [] →
      Session.clone_job jobs world name src_id new_id es mp co ro now =
        (.error (.BadInput ("Jobs with active file transfers cannot be cloned")), jobs,
         (new_id, [PARAMS_FILE_NAME]) :: world)) := by
  constructor
  · intro jobs world name src_id new_id src es mp co ro now ji hsrc hinfo hrun
    by_cases hn : str_len name < 1
    · exact ⟨("Job must have a name"), by simp [Session.clone_job, hn]⟩
    · by_cases hd : jobs.any (fun kv => decide (kv.2.name = name)) = true
      · exact ⟨("Job with name " ++ name ++ " already exists"),
          by simp [Session.clone_job, hn, hd]⟩
      · exact ⟨("Running jobs cannot be cloned"),
          by simp [Session.clone_job, hn, hd, hsrc, hinfo, hrun]⟩
  · intro jobs world name src_id new_id src es mp co ro now ji hsrc hn hd hinfo hrun hnew htf
    simp [Session.clone_job, hn, hd, hsrc, hinfo, hrun, hnew, Job.clone, htf]

/-- Claim C5 witness: the amended theorem evaluated on a session holding
one non-running job with an open transfer. -/
theorem claim_C5_witness :
    Session.clone_job [(1, xfer_job)] [(1, [("commands.txt")])] ("copy2") 1 2
        (.ok State.NotStarted) (.ok none) true true 0 =
      (.error (.BadInput ("Jobs with active file transfers cannot be cloned")), [(1, xfer_job)],
       (2, [PARAMS_FILE_NAME]) :: [(1, [("commands.txt")])]) := by
  exact claim_C5_clone_running_or_open_transfers.2 [(1, xfer_job)] [(1, [("commands.txt")])]
    ("copy2") 1 2 xfer_job (.ok State.NotStarted) (.ok none) true true 0
    {name := ("src"), state := State.NotStarted, first_stage := 0, last_stage := 0,
     created_on := 0, commands_mode := JobCommandsMode.None, progress := none}
    (by decide) (by decide) (by decide) (by decide) (by decide) (by decide) (by decide)

/-- The stage list produced by get_stages is sorted ascending. -/
theorem get_stages_sorted (files : List String) (base : String) :
    List.Sorted (fun a b : Int => a ≤ b) (get_stages files base) :=
  List.sorted_insertionSort _ _

/-- Membership in the stage list is membership of a parsed stage number of
some directory entry. -/
theorem mem_get_stages (files : List String) (base : String) (n : Int) :
    n ∈ get_stages files base ↔ ∃ p ∈ files, stage_file_number base p = some n := by
  rw [get_stages, (List.perm_insertionSort _ _).mem_iff]
  exact List.mem_filterMap

/-- The head of a sorted list is a lower bound of the list. -/
theorem sorted_head_le {f : Int} {rest : List Int}
    (hs : List.Sorted (fun a b : Int => a ≤ b) (f :: rest)) :
    ∀ n ∈ f :: rest, f ≤ n := by
  intro n hn
  rcases List.mem_cons.mp hn with h | h
  · exact le_of_eq h.symm
  · exact List.rel_of_sorted_cons hs n h

/-- The last element of a list is a member of it. -/
theorem mem_of_getLast?_eq : ∀ (l : List Int) (m : Int), l.getLast? = some m → m ∈ l := by
  intro l
  induction l with
  | nil => intro m h; cases h
  | cons x xs ih =>
    intro m h
    cases xs with
    | nil => cases h; exact List.mem_singleton_self x
    | cons y r =>
      rw [List.getLast?_cons_cons] at h
      exact List.mem_cons_of_mem x (ih m h)

/-- The last element of a sorted list is an upper bound of the list. -/
theorem sorted_le_getLast? : ∀ (l : List Int),
    List.Sorted (fun a b : Int => a ≤ b) l →
    ∀ m, l.getLast? = some m → ∀ n ∈ l, n ≤ m := by
  intro l
  induction l with
  | nil => intro _ m h; cases h
  | cons x xs ih =>
    intro hs m h n hn
    cases xs with
    | nil =>
      cases h
      have : n = x := List.mem_singleton.mp hn
      simp [this]
    | cons y r =>
      rw [List.getLast?_cons_cons] at h
      have hs2 := (List.sorted_cons.mp hs).2
      rcases List.mem_cons.mp hn with hx | hx
      · subst hx
        exact le_trans ((List.sorted_cons.mp hs).1 m (mem_of_getLast?_eq _ m h)) (le_refl m)
      · exact ih hs2 m h n hx

/-- Behaviour of the contiguous-run walk run_last on a sorted
duplicate-free stage list: the run end is at least the head, every value
between head and run end is present, and the successor of the run end is
absent (the first gap truncates). -/
theorem run_last_spec : ∀ (rest : List Int) (f : Int),
    List.Sorted (fun a b : Int => a ≤ b) (f :: rest) → (f :: rest).Nodup →
    f ≤ run_last f rest ∧
    (∀ k : Int, f ≤ k → k ≤ run_last f rest → k ∈ f :: rest) ∧
    run_last f rest + 1 ∉ f :: rest := by
  intro rest
  induction rest with
  | nil =>
    intro f _ _
    refine ⟨le_refl f, ?_, ?_⟩
    · intro k h1 h2
      have hk : k = f := le_antisymm (by simpa [run_last] using h2) h1
      simp [hk]
    · simp only [run_last, List.mem_singleton]
      omega
  | cons n rest ih =>
    intro f hs hd
    have hs2 : List.Sorted (fun a b : Int => a ≤ b) (n :: rest) := (List.sorted_cons.mp hs).2
    have hd2 : (n :: rest).Nodup := (List.nodup_cons.mp hd).2
    have hfn2 : f ≤ n := (List.sorted_cons.mp hs).1 n (List.mem_cons_self n rest)
    have hne : f ≠ n := by
      intro hh
      exact (List.nodup_cons.mp hd).1 (hh ▸ List.mem_cons_self n rest)
    by_cases hfn : f + 1 = n
    · have hrl : run_last f (n :: rest) = run_last n rest := by
        simp [run_last, hfn]
      obtain ⟨ih1, ih2, ih3⟩ := ih n hs2 hd2
      refine ⟨?_, ?_, ?_⟩
      · rw [hrl]; omega
      · intro k h1 h2
        rw [hrl] at h2
        by_cases hk : k = f
        · simp [hk]
        · have hnk : n ≤ k := by omega
          exact List.mem_cons_of_mem f (ih2 k hnk h2)
      · rw [hrl]
        intro hmem
        rcases List.mem_cons.mp hmem with h | h
        · omega
        · exact ih3 h
    · have hrl : run_last f (n :: rest) = f := by
        simp [run_last, hfn]
      have hlt : f + 1 < n := by omega
      refine ⟨by rw [hrl], ?_, ?_⟩
      · intro k h1 h2
        rw [hrl] at h2
        have hk : k = f := le_antisymm h2 h1
        simp [hk]
      · rw [hrl]
        intro hmem
        rcases List.mem_cons.mp hmem with h | h
        · omega
        · rcases List.mem_cons.mp h with h2 | h2
          · omega
          · have : n ≤ f + 1 := List.rel_of_sorted_cons hs2 (f + 1) h2
            omega

/-- First/last computation on a sorted non-empty stage list: the first
component is the least element. -/
theorem first_last_min : ∀ (st : List Int), List.Sorted (fun a b : Int => a ≤ b) st →
    st ≠ [] → (first_last_stages st).1 ∈ st ∧ ∀ n ∈ st, (first_last_stages st).1 ≤ n := by
  intro st hs hne
  cases st with
  | nil => exact absurd rfl hne
  | cons a rest =>
    simp only [first_last_stages]
    exact ⟨List.mem_cons_self a rest, fun n hn => sorted_head_le hs n hn⟩

/-- First/last computation on a sorted duplicate-free non-empty stage
list: the second component ends the contiguous run at the head. -/
theorem first_last_run : ∀ (st : List Int), List.Sorted (fun a b : Int => a ≤ b) st →
    st.Nodup → st ≠ [] →
    (first_last_stages st).1 ≤ (first_last_stages st).2 ∧
    (∀ k : Int, (first_last_stages st).1 ≤ k → k ≤ (first_last_stages st).2 → k ∈ st) ∧
    (first_last_stages st).2 + 1 ∉ st := by
  intro st hs hnd hne
  cases st with
  | nil => exact absurd rfl hne
  | cons a rest =>
    simp only [first_last_stages]
    exact run_last_spec rest a hs hnd

/-- Claim C3: Job::info derives its stage fields from first_last_stages
over the sorted trajectory stage list; the empty directory yields (0, 0);
the reported first stage is the smallest present stage number; on a
duplicate-free stage set the reported last stage is the end of the
contiguous run starting at the first stage (every stage in between is
present, the successor of the reported last stage is absent); over
{trajectory.1, trajectory.2, trajectory.4, trajectory.5} the result is
first = 1, last = 2. -/
theorem claim_C3_contiguous_stage_truncation :
    (∀ (j : Job) (es : State) (mp : Option Progress) (files : List String) (ji : JobInfo),
      Job.info j (.ok es) (.ok mp) files = .ok ji →
        (ji.first_stage, ji.last_stage) =
          first_last_stages (get_stages files TRAJECTORY_FILE_BASE)) ∧
    (∀ files n, n ∈ get_stages files TRAJECTORY_FILE_BASE ↔
      ∃ p ∈ files, stage_file_number TRAJECTORY_FILE_BASE p = some n) ∧
    (∀ files, get_stages files TRAJECTORY_FILE_BASE = [] →
      first_last_stages (get_stages files TRAJECTORY_FILE_BASE) = (0, 0)) ∧
    (∀ (files : List String) (f l : Int), get_stages files TRAJECTORY_FILE_BASE ≠ [] →
      first_last_stages (get_stages files TRAJECTORY_FILE_BASE) = (f, l) →
        f ∈ get_stages files TRAJECTORY_FILE_BASE ∧
        ∀ n ∈ get_stages files TRAJECTORY_FILE_BASE, f ≤ n) ∧
    (∀ (files : List String) (f l : Int), (get_stages files TRAJECTORY_FILE_BASE).Nodup →
      get_stages files TRAJECTORY_FILE_BASE ≠ [] →
      first_last_stages (get_stages files TRAJECTORY_FILE_BASE) = (f, l) →
        f ≤ l ∧ (∀ k : Int, f ≤ k → k ≤ l → k ∈ get_stages files TRAJECTORY_FILE_BASE) ∧
        l + 1 ∉ get_stages files TRAJECTORY_FILE_BASE) ∧
    first_last_stages (get_stages sample_traj_files TRAJECTORY_FILE_BASE) = (1, 2) := by
  refine ⟨?_, ?_, ?_, ?_, ?_, by decide⟩
  · intro j es mp files ji h
    cases mp with
    | none =>
      simp only [Job.info] at h
      cases h
      simp
    | some p =>
      simp only [Job.info] at h
      cases h
      simp
  · intro files n
    exact mem_get_stages files TRAJECTORY_FILE_BASE n
  · intro files h
    rw [h]
    rfl
  · intro files f l hne hfl
    have h := first_last_min _ (get_stages_sorted files TRAJECTORY_FILE_BASE) hne
    rw [hfl] at h
    exact h
  · intro files f l hnd hne hfl
    have h := first_last_run _ (get_stages_sorted files TRAJECTORY_FILE_BASE) hnd hne
    rw [hfl] at h
    exact h

/-- Claim C3 witness: the claim theorem evaluated on the sample directory
{trajectory.1, trajectory.2, trajectory.4, trajectory.5}: stage 1 is
reported as the first stage and stage 3, the successor of the reported
last stage 2, is not in the stage list. -/
theorem claim_C3_witness :
    (1 : Int) ∈ get_stages sample_traj_files TRAJECTORY_FILE_BASE ∧
    ((2 : Int) + 1) ∉ get_stages sample_traj_files TRAJECTORY_FILE_BASE := by
  constructor
  · exact (claim_C3_contiguous_stage_truncation.2.2.2.1 sample_traj_files 1 2
      (by decide) (by decide)).1
  · exact (claim_C3_contiguous_stage_truncation.2.2.2.2.1 sample_traj_files 1 2
      (by decide) (by decide) (by decide)).2.2

/-- Claim C10: last_available_stage is the numerically greatest stage
number among the trajectory artifacts present (none when there are none),
with no truncation at gaps: over {trajectory.1, trajectory.2, trajectory.4,
trajectory.5} it returns 5 while Job::info reports last_stage 2. -/
theorem claim_C10_last_available_stage :
    (∀ files, get_stages files TRAJECTORY_FILE_BASE = [] →
      last_available_stage files = none) ∧
    (∀ files m, last_available_stage files = some m →
      m ∈ get_stages files TRAJECTORY_FILE_BASE ∧
      ∀ n ∈ get_stages files TRAJECTORY_FILE_BASE, n ≤ m) ∧
    last_available_stage sample_traj_files = some 5 ∧
    Job.info sample_job (.ok State.NotStarted) (.ok none) sample_traj_files =
      .ok {name := ("job"), state := State.NotStarted, first_stage := 1, last_stage := 2,
           created_on := 0, commands_mode := JobCommandsMode.None, progress := none} := by
  refine ⟨?_, ?_, by decide, by decide⟩
  · intro files h
    rw [last_available_stage, h]
    rfl
  · intro files m h
    rw [last_available_stage] at h
    exact ⟨mem_of_getLast?_eq _ m h,
      sorted_le_getLast? _ (get_stages_sorted files TRAJECTORY_FILE_BASE) m h⟩

/-- Claim C10 witness: the claim theorem evaluated on the sample
directory: 5 is among the present stages and bounds them. -/
theorem claim_C10_witness :
    (5 : Int) ∈ get_stages sample_traj_files TRAJECTORY_FILE_BASE ∧
    (4 : Int) ≤ 5 := by
  have h := claim_C10_last_available_stage.2.1 sample_traj_files 5 (by decide)
  exact ⟨h.1, h.2 4 (by decide)⟩

/-- Stage number of a trajectory or last-frame artifact, the notion the
stage-pruning claim quantifies over: a directory entry of the form
trajectory.n.pdb or last.n.pdb carries stage number n. -/
def stage_artifact_number (p : String) : Option Int :=
  match stage_file_number TRAJECTORY_FILE_BASE p with
  | some n => some n
  | none => stage_file_number LAST_FRAME_FILE_BASE p

/-- Sample job directory holding stage artifacts for stages 1, 2 and 3
next to two non-stage files. -/
def sample_prune_files : List String :=
  [("trajectory.1.pdb"), ("last.1.pdb"), ("trajectory.2.pdb"), ("last.2.pdb"),
   ("trajectory.3.pdb"), ("commands.txt"), ("data.bin")]

/-- The deletion test of clear_stages holds exactly on artifacts whose
stage number is at least the threshold. -/
theorem clear_stages_candidate_iff (N : Int) (p : String) :
    clear_stages_candidate N p = true ↔
      ∃ n, stage_artifact_number p = some n ∧ N ≤ n := by
  unfold clear_stages_candidate stage_artifact_number stage_file_number
  cases hext : file_extension p with
  | none => simp
  | some extn =>
    cases hstem : file_stem p with
    | none => by_cases hpdb : extn = ("pdb") <;> simp [hpdb]
    | some name =>
      by_cases hpdb : extn = ("pdb")
      case neg => simp [hpdb]
      case pos =>
        subst hpdb
        by_cases ht : str_starts_with name (TRAJECTORY_FILE_BASE ++ ("."))
        case pos =>
          rcases hsp : str_split ('.') name with _ | ⟨a, _ | ⟨b, _ | ⟨c, r⟩⟩⟩
          · simp [ht, hsp]
          · simp [ht, hsp]
          · cases hpar : parse_i32 b with
            | none => simp [ht, hsp, hpar]
            | some n => simp [ht, hsp, hpar]
          · simp [ht, hsp]
        case neg =>
          by_cases hl : str_starts_with name (LAST_FRAME_FILE_BASE ++ ("."))
          case pos =>
            rcases hsp : str_split ('.') name with _ | ⟨a, _ | ⟨b, _ | ⟨c, r⟩⟩⟩
            · simp [ht, hl, hsp]
            · simp [ht, hl, hsp]
            · cases hpar : parse_i32 b with
              | none => simp [ht, hl, hsp, hpar]
              | some n => simp [ht, hl, hsp, hpar]
            · simp [ht, hl, hsp]
          case neg => simp [ht, hl]

/-- Claim C4: clearing stages at threshold N keeps exactly the files
whose stage-artifact number, when they have one, is below N — so every
trajectory or last-frame artifact numbered at least N is removed, while
lower-numbered artifacts and non-stage files are untouched; on the sample
directory with threshold 2, exactly the stage-2 and stage-3 artifacts
disappear. -/
theorem claim_C4_prune_stage_threshold :
    (∀ (files : List String) (N : Int) (f : String),
      f ∈ clear_stages files N ↔
        (f ∈ files ∧ ∀ n, stage_artifact_number f = some n → n < N)) ∧
    clear_stages sample_prune_files 2 =
      [("trajectory.1.pdb"), ("last.1.pdb"), ("commands.txt"), ("data.bin")] := by
  refine ⟨?_, by decide⟩
  intro files N f
  rw [clear_stages, List.mem_filter]
  simp only [decide_eq_true_eq]
  constructor
  · rintro ⟨hmem, hc⟩
    refine ⟨hmem, ?_⟩
    intro n hn
    by_contra hge
    exact hc ((clear_stages_candidate_iff N f).mpr ⟨n, hn, by omega⟩)
  · rintro ⟨hmem, hlt⟩
    refine ⟨hmem, ?_⟩
    intro hc
    rcases (clear_stages_candidate_iff N f).mp hc with ⟨n, hn, hge⟩
    exact absurd (hlt n hn) (by omega)

/-- Claim C4 witness: the claim theorem evaluated on the sample directory
at threshold 2: the stage-1 trajectory artifact survives and the stage-3
one is removed. -/
theorem claim_C4_witness :
    ("trajectory.1.pdb") ∈ clear_stages sample_prune_files 2 ∧
    ("trajectory.3.pdb") ∉ clear_stages sample_prune_files 2 := by
  constructor
  · refine (claim_C4_prune_stage_threshold.1 sample_prune_files 2 ("trajectory.1.pdb")).mpr
      ⟨by decide, ?_⟩
    intro n hn
    rw [show stage_artifact_number ("trajectory.1.pdb") = some 1 from by decide] at hn
    cases hn
    decide
  · intro hmem
    have h := (claim_C4_prune_stage_threshold.1 sample_prune_files 2 ("trajectory.3.pdb")).mp hmem
    have h3 := h.2 3 (by decide)
    exact absurd h3 (by decide)

end WebMMB
